import Mathlib

/-!
# Tracing demo (`opentracing/main.go`): handlers, wiring and propagation

The Go program is HTTP glue around a tracing library.  The handlers are
embedded as computations that record, in order, every call they make to the
outside world (tracer, HTTP client, response writer, logger); the results of
those calls are supplied by an environment `Env`, so a statement quantified
over `Env` covers every outcome the calls can have.

The tracing core itself (span creation, Inject/Extract, the store) is not part
of the repository; where a statement needs its behaviour it is modelled from
the specification, in the namespace `SpecTracer`.
-/

namespace OpenTracingDemo

/-! ## Data model -/

/-- A Go `error` value that is not nil, represented by its message. -/
abbrev Error := String

/-- The carrier of a propagated context: a string-keyed map with string values
(`http.Header` seen through `opentracing.HTTPHeadersCarrier`), kept as an
association list in insertion order. -/
abbrev Header := List (String × String)

/-- The tuple that crosses process boundaries. -/
structure SpanContext where
  traceID : Nat
  spanID : Nat
  parentSpanID : Option Nat
  baggage : List (String × String)
  deriving DecidableEq, Repr

/-- A span as the handlers see it: the value returned by `StartSpan`.  Tags,
events and the finish call are recorded as effects on this value. -/
structure Span where
  context : SpanContext
  operationName : String
  deriving DecidableEq, Repr

/-- The options passed to `opentracing.StartSpan` after the operation name. -/
inductive StartSpanOption where
  | childOf (ctx : SpanContext)
  deriving DecidableEq, Repr

/-- Values given to `Span.SetTag`. -/
inductive TagValue where
  | bool (b : Bool)
  | str (s : String)
  | num (n : Int)
  deriving DecidableEq, Repr

/-- A parsed URL, e.g. `http://localhost:8080/async` is
`⟨"http", "localhost:8080", "/async"⟩`. -/
structure URL where
  scheme : String
  host : String
  path : String
  deriving DecidableEq, Repr

/-- The parts of `*http.Request` the program touches. -/
structure Request where
  method : String
  url : URL
  header : Header
  deriving DecidableEq, Repr

/-- One call made by the program to the outside world, with the values passed
and, where the program looks at it, the value returned. -/
inductive Effect where
  | startSpan (op : String) (opts : List StartSpanOption) (sp : Span)
  | finish (sp : Span)
  | write (bytes : String)
  | newRequest (method : String) (url : URL)
  | inject (ctx : SpanContext) (req : Request) (hdr : Header) (err : Option Error)
  | extractOk (hdr : Header) (ctx : SpanContext)
  | extractErr (hdr : Header) (err : Error)
  | fatalf (msg : String)
  | goStmt
  | clientDo (req : Request) (err : Option Error)
  | setTag (sp : Span) (key : String) (val : TagValue)
  | extErrorSet (sp : Span) (val : Bool)
  | logEvent (sp : Span) (msg : String)
  | logEventWithPayload (sp : Span) (msg : String) (payload : Option Error)
  | httpGet (url : URL)
  | sleep (ms : Nat)
  deriving DecidableEq, Repr

/-- The outcomes of the calls a handler makes.  `inject` receives the request
whose header map is the carrier and returns the map after the call together
with the error; `clientDo` is `http.DefaultClient.Do`, of which only the error
is inspected. -/
structure Env where
  startSpan : String → List StartSpanOption → Span
  inject : SpanContext → Request → Header × Option Error
  extract : Header → Except Error SpanContext
  clientDo : Request → Option Error
  randIntn : Nat → Nat

/-! ## Computations -/

/-- A run of a Go function body: the calls made so far, the calls registered
with `defer` (most recent first), the bodies started with `go`, and the value
returned; `result = none` means the process was terminated (`os.Exit`). -/
structure Proc (α : Type) where
  trace : List Effect
  deferred : List Effect
  spawned : List (List Effect)
  result : Option α

namespace Proc

/-- A body that returns `a` without calling anything. -/
def ret {α : Type} (a : α) : Proc α := ⟨[], [], [], some a⟩

/-- Sequencing: nothing of the second part happens once the process exited. -/
def seq {α β : Type} (p : Proc α) (f : α → Proc β) : Proc β :=
  match p.result with
  | none => ⟨p.trace, p.deferred, p.spawned, none⟩
  | some a =>
    let q := f a
    ⟨p.trace ++ q.trace, q.deferred ++ p.deferred, p.spawned ++ q.spawned, q.result⟩

instance : Monad Proc where
  pure := ret
  bind := seq

/-- A call whose result the program ignores or that returns nothing. -/
def call (e : Effect) : Proc Unit := ⟨[e], [], [], some ()⟩

/-- Go `defer`: the call runs when the surrounding function returns. -/
def defer (e : Effect) : Proc Unit := ⟨[], [e], [], some ()⟩

/-- `log.Fatalf`: writes the message and exits the process; deferred calls do
not run. -/
def fatalf {α : Type} (msg : String) : Proc α := ⟨[Effect.fatalf msg], [], [], none⟩

/-- The boundary of a function: on return its deferred calls run, last
registered first. -/
def func {α : Type} (body : Proc α) : Proc α :=
  ⟨body.trace ++ (if body.result.isSome then body.deferred else []), [], body.spawned,
    body.result⟩

/-- Go `go f()`: the statement itself returns at once; the body is handed to
the scheduler. -/
def go (body : Proc Unit) : Proc Unit :=
  ⟨[Effect.goStmt], [], [(func body).trace], some ()⟩

end Proc

open Proc

/-- Formatting of an `error` with the verb `%v`. -/
def fmtV : Option Error → String
  | none => "<nil>"
  | some e => e

/-- Models `opentracing.StartSpan(op, opts...)`. -/
def StartSpan (env : Env) (op : String) (opts : List StartSpanOption) : Proc Span :=
  let sp := env.startSpan op opts
  ⟨[Effect.startSpan op opts sp], [], [], some sp⟩

/-- Models `http.NewRequest(method, url, nil)`: a request with an empty header map. -/
def NewRequest (method : String) (url : URL) : Proc Request :=
  ⟨[Effect.newRequest method url], [], [], some ⟨method, url, []⟩⟩

/-- Models `span.Tracer().Inject(ctx, TextMap, HTTPHeadersCarrier(req.Header))`: the
header map of `req` is updated in place and the error returned. -/
def Inject (env : Env) (ctx : SpanContext) (req : Request) : Proc (Request × Option Error) :=
  let out := env.inject ctx req
  ⟨[Effect.inject ctx req out.1 out.2], [], [], some ({ req with header := out.1 }, out.2)⟩

/-- Models `opentracing.GlobalTracer().Extract(TextMap, HTTPHeadersCarrier(hdr))`. -/
def Extract (env : Env) (hdr : Header) : Proc (Except Error SpanContext) :=
  match env.extract hdr with
  | .ok ctx => ⟨[Effect.extractOk hdr ctx], [], [], some (.ok ctx)⟩
  | .error e => ⟨[Effect.extractErr hdr e], [], [], some (.error e)⟩

/-- Models `http.DefaultClient.Do(req)`, returning the error. -/
def ClientDo (env : Env) (req : Request) : Proc (Option Error) :=
  let err := env.clientDo req
  ⟨[Effect.clientDo req err], [], [], some err⟩

/-- Models `time.Sleep(time.Duration(rand.Intn(200)) * time.Millisecond)`. -/
def sleepRandom (env : Env) : Proc Unit :=
  call (Effect.sleep (env.randIntn 200))

/-! ## The handlers (`main.go`, lines 21-89) -/

/-- Models `indexHandler`. -/
def indexHandler (_env : Env) (_r : Request) : Proc Unit := func do
  call (Effect.write "<a href=\"/home\"> Click here to start a request </a>")

/-- The body of the goroutine started by `homeHandler` (lines 40-45). -/
def asyncBody (env : Env) (span : Span) (asyncReq : Request) : Proc Unit := do
  let err ← ClientDo env asyncReq
  if err = none then
    call (Effect.setTag span "error" (TagValue.bool true))
    call (Effect.logEvent span ("GET /async error: " ++ fmtV err))

/-- Models `homeHandler`. -/
def homeHandler (env : Env) (_r : Request) : Proc Unit := func do
  let span ← StartSpan env "/home" []
  defer (Effect.finish span)
  call (Effect.write "Request started")
  let asyncReq ← NewRequest "GET" ⟨"http", "localhost:8080", "/async"⟩
  let (asyncReq, err) ← Inject env span.context asyncReq
  if err ≠ none then
    fatalf ("Could not inject span context into header: " ++ fmtV err)
  go (asyncBody env span asyncReq)
  let req ← NewRequest "GET" ⟨"http", "localhost:8080", "/service"⟩
  let (req, err) ← Inject env span.context req
  if err ≠ none then
    fatalf ("Could not inject span context into header: " ++ fmtV err)
  let err ← ClientDo env req
  if err = none then
    call (Effect.extErrorSet span true)
    call (Effect.logEventWithPayload span "Get service error" err)
  sleepRandom env
  call (Effect.write "Request done!")

/-- Models `serviceHandler`. -/
def serviceHandler (env : Env) (r : Request) : Proc Unit := func do
  let opName := r.url.path
  let wire ← Extract env r.header
  let sp ← match wire with
    | .error _ => StartSpan env opName []
    | .ok wireContext => StartSpan env opName [StartSpanOption.childOf wireContext]
  defer (Effect.finish sp)
  call (Effect.httpGet ⟨"http", "localhost:8080", "/db"⟩)
  sleepRandom env

/-- Models `dbHandler`. -/
def dbHandler (env : Env) (_r : Request) : Proc Unit := func do
  sleepRandom env

/-! ## Routing (`main.go`, lines 133-138) -/

/-- The handler functions registered on the mux. -/
inductive HandlerName where
  | index
  | home
  | service
  | db
  deriving DecidableEq, Repr

/-- The registrations made by `mux.HandleFunc`, in source order. -/
def muxRoutes : List (String × HandlerName) :=
  [("/", HandlerName.index), ("/home", HandlerName.home), ("/async", HandlerName.service),
   ("/service", HandlerName.service), ("/db", HandlerName.db)]

/-- Pattern matching of `http.ServeMux`: a pattern ending in a slash names a
subtree, any other pattern names exactly one path. -/
def patternMatches (pat path : String) : Bool :=
  if pat.data.getLast? = some '/' then pat.data.isPrefixOf path.data else decide (pat = path)

/-- Picks the longest registered pattern that matches, as `http.ServeMux` does. -/
def route (routes : List (String × HandlerName)) (path : String) : Option HandlerName :=
  ((routes.filter (fun pr => patternMatches pr.1 path)).foldl
    (fun best cand =>
      match best with
      | none => some cand
      | some b => if b.1.data.length < cand.1.data.length then some cand else some b)
    none).map (fun pr => pr.2)

/-- A request served by the application listener on port 8080. -/
def serve (env : Env) (r : Request) : Proc Unit :=
  match route muxRoutes r.url.path with
  | some HandlerName.index => indexHandler env r
  | some HandlerName.home => homeHandler env r
  | some HandlerName.service => serviceHandler env r
  | some HandlerName.db => dbHandler env r
  | none => func (call (Effect.write "404 page not found\n"))

/-! ## Observations on runs -/

/-- The `(operation name, options)` of every `StartSpan` call, in order. -/
def startSpanCalls : List Effect → List (String × List StartSpanOption)
  | [] => []
  | Effect.startSpan op opts _ :: es => (op, opts) :: startSpanCalls es
  | _ :: es => startSpanCalls es

/-- The spans returned by `StartSpan`, in order. -/
def startedSpans : List Effect → List Span
  | [] => []
  | Effect.startSpan _ _ sp :: es => sp :: startedSpans es
  | _ :: es => startedSpans es

/-- The spans on which `Finish` was called, one entry per call, in order. -/
def finishes : List Effect → List Span
  | [] => []
  | Effect.finish sp :: es => sp :: finishes es
  | _ :: es => finishes es

/-- The bytes written to the response, in order. -/
def responseBytes : List Effect → List String
  | [] => []
  | Effect.write b :: es => b :: responseBytes es
  | _ :: es => responseBytes es

/-- The requests handed to `http.DefaultClient.Do`, in order. -/
def sentRequests : List Effect → List Request
  | [] => []
  | Effect.clientDo req _ :: es => req :: sentRequests es
  | _ :: es => sentRequests es

/-- Tells a call of `log.Fatalf`. -/
def isFatal : Effect → Bool
  | Effect.fatalf _ => true
  | _ => false

/-- Tells a call that sets the tag `error` to true on `sp`, through `SetTag` or
through `ext.Error.Set`. -/
def marksError (sp : Span) : Effect → Bool
  | Effect.setTag s key val => decide (s = sp ∧ key = "error" ∧ val = TagValue.bool true)
  | Effect.extErrorSet s val => decide (s = sp ∧ val = true)
  | _ => false

/-- Tells a call that logs an event on `sp`. -/
def logsEvent (sp : Span) : Effect → Bool
  | Effect.logEvent s _ => decide (s = sp)
  | Effect.logEventWithPayload s _ _ => decide (s = sp)
  | _ => false

/-- Every call made during a run, by the function itself and by the goroutines
it started. -/
def allCalls {α : Type} (p : Proc α) : List Effect := p.trace ++ p.spawned.flatten

/-- The span `homeHandler` works on: the result of `StartSpan("/home")`. -/
def homeSpan (env : Env) : Span := env.startSpan "/home" []

/-- The request to `/async` as `homeHandler` builds it, before Inject. -/
def asyncRequest0 : Request := ⟨"GET", ⟨"http", "localhost:8080", "/async"⟩, []⟩

/-- The request to `/service` as `homeHandler` builds it, before Inject. -/
def serviceRequest0 : Request := ⟨"GET", ⟨"http", "localhost:8080", "/service"⟩, []⟩

/-- The request to `/async` after Inject has written into its header map. -/
def asyncRequest (env : Env) : Request :=
  { asyncRequest0 with header := (env.inject (homeSpan env).context asyncRequest0).1 }

/-- The request to `/service` after Inject has written into its header map. -/
def serviceRequest (env : Env) : Request :=
  { serviceRequest0 with header := (env.inject (homeSpan env).context serviceRequest0).1 }

/-- The environment `env` with the outcome of `Do` on requests to `/async`
replaced by `out`. -/
def withAsyncOutcome (env : Env) (out : Option Error) : Env :=
  { env with clientDo := fun q => if q.url.path = "/async" then out else env.clientDo q }

/-! ## Scheduling of goroutines -/

/-- The threads of a running handler: what is left of the handler's own
thread, the bodies of `go` statements not reached yet, and what is left of the
goroutines already started. -/
structure Sched where
  main : List Effect
  pending : List (List Effect)
  running : List (List Effect)

namespace Sched

/-- One step of thread `c` (`0` is the handler, `k + 1` the `k`-th started
goroutine); `none` when that thread has nothing left.  A `go` statement of the
handler starts the next pending body. -/
def step (st : Sched) : Nat → Option (Effect × Sched)
  | 0 =>
    match st.main with
    | [] => none
    | e :: m =>
      if e = Effect.goStmt then
        match st.pending with
        | [] => some (e, ⟨m, [], st.running⟩)
        | b :: bs => some (e, ⟨m, bs, st.running ++ [b]⟩)
      else some (e, ⟨m, st.pending, st.running⟩)
  | k + 1 =>
    match st.running.get? k with
    | some (e :: t) => some (e, ⟨st.main, st.pending, st.running.set k t⟩)
    | _ => none

/-- The calls observed when the threads are stepped in the order `sched`
gives; a choice that cannot step is skipped, and `log.Fatalf` in any thread
ends the process. -/
def run : Sched → List Nat → List Effect
  | _, [] => []
  | st, c :: cs =>
    match st.step c with
    | none => run st cs
    | some (e, st') => if isFatal e then [e] else e :: run st' cs

end Sched

/-- The calls observed from a handler run under the schedule `sched`. -/
def execution {α : Type} (p : Proc α) (sched : List Nat) : List Effect :=
  Sched.run ⟨p.trace, p.spawned, []⟩ sched

/-- The schedule that lets the handler finish before any goroutine moves. -/
def handlerFirst {α : Type} (p : Proc α) : List Nat :=
  List.replicate p.trace.length 0 ++ List.replicate p.spawned.flatten.length 1

/-- The carriers known to hold `ctx` after the call `e`: a successful Inject of
`ctx` adds the request with its header map as Inject left it. -/
def carriers (ctx : SpanContext) (inj : List Request) : Effect → List Request
  | Effect.inject c req hdr none => if c = ctx then { req with header := hdr } :: inj else inj
  | _ => inj

/-- Whether the call `e` is allowed when `inj` are the carriers that hold the
context: a request may be handed to the client only if it is one of them. -/
def sendAllowed (inj : List Request) : Effect → Bool
  | Effect.clientDo req _ => decide (req ∈ inj)
  | _ => true

/-- Monitor: every request handed to the HTTP client was, earlier in the trace,
the carrier of a successful Inject of `ctx` and is sent with the header map
that Inject produced. -/
def sentAfterInject (ctx : SpanContext) : List Request → List Effect → Bool
  | _, [] => true
  | inj, e :: es => sendAllowed inj e && sentAfterInject ctx (carriers ctx inj e) es

/-- The monitor along the handler's own thread, which also checks each body of
a `go` statement against the carriers known when the statement runs. -/
def threadsSendAfterInject (ctx : SpanContext) :
    List Request → List Effect → List (List Effect) → Bool
  | _, [], _ => true
  | inj, e :: es, pend =>
    sendAllowed inj e &&
      (if e = Effect.goStmt then
        match pend with
        | [] => threadsSendAfterInject ctx (carriers ctx inj e) es []
        | b :: bs => sentAfterInject ctx inj b && threadsSendAfterInject ctx (carriers ctx inj e) es bs
      else threadsSendAfterInject ctx (carriers ctx inj e) es pend)

/-! ## Process wiring (`main`, lines 91-141) -/

/-- A reference to a store object on the heap; two references name the same
instance exactly when they are equal. -/
structure StoreRef where
  addr : Nat
  deriving DecidableEq, Repr

/-- The value of `appdash.NewLocalCollector(store)`. -/
structure LocalCollector where
  store : StoreRef
  deriving DecidableEq, Repr

/-- The value of `appdash.NewServer(l, collector)`; the listener is kept as its port. -/
structure CollectorServer where
  listenerPort : Nat
  collector : LocalCollector
  deriving DecidableEq, Repr

/-- The fields of `*traceapp.App` that `main` assigns; `none` is a nil interface. -/
structure TraceApp where
  Store : Option StoreRef
  Queryer : Option StoreRef
  deriving DecidableEq, Repr

/-- The value of `appdashot.NewTracer(appdash.NewRemoteCollector(addr))`. -/
structure RemoteTracer where
  collectorAddr : String
  deriving DecidableEq, Repr

/-- The outcomes of the calls `main` makes before it serves. -/
structure MainEnv where
  listenTCP : Except Error Nat
  urlParse : String → Except Error URL
  traceappNew : URL → Except Error TraceApp

/-- The objects in place once `main` serves requests. -/
structure Wiring where
  store : StoreRef
  collectorServer : CollectorServer
  tapp : TraceApp
  appdashAddr : String
  globalTracer : RemoteTracer
  addr : String
  mux : List (String × HandlerName)

/-- Models `appdash.NewMemoryStore()` on a heap with `n` store objects: the new
store gets the next free address. -/
def NewMemoryStore (n : Nat) : StoreRef × Nat := (⟨n⟩, n + 1)

/-- Models `main` up to the point where it serves: `Except.error msg` is an exit
through `log.Fatal` or `log.Fatalf` with that message. -/
def main (o : MainEnv) : Except Error Wiring := do
  let (store, _) := NewMemoryStore 0
  let collectPort ← o.listenTCP
  let collectAddr := ":" ++ toString collectPort
  let cs : CollectorServer := ⟨collectPort, ⟨store⟩⟩
  let appdashPort := 8700
  let appdashURLStr := "http://localhost:" ++ toString appdashPort
  let appdashURL ←
    match o.urlParse appdashURLStr with
    | .ok u => pure u
    | .error err => throw ("Error parsing " ++ appdashURLStr ++ ":" ++ err)
  let tapp ← o.traceappNew appdashURL
  let tapp := { tapp with Store := some store }
  let tapp := { tapp with Queryer := some store }
  let tracer : RemoteTracer := ⟨collectAddr⟩
  let port := 8080
  let addr := ":" ++ toString port
  pure ⟨store, cs, tapp, ":" ++ toString appdashPort, tracer, addr, muxRoutes⟩

/-! ## The store, modelled from the specification -/

/-- Modelled from the spec: the Store (`appdash.MemoryStore`, an external
library), an index of the received spans by TraceID then SpanID, kept as the
list of indexed spans in order of arrival. -/
abbrev MemoryStore := List Span

/-- Modelled from the spec: `Store.Write(span)` inserts into the
TraceID→SpanID index; an entry with the same two ids is replaced. -/
def MemoryStore.Write (s : MemoryStore) (sp : Span) : MemoryStore :=
  s.filter (fun x => !decide (x.context.traceID = sp.context.traceID ∧
    x.context.spanID = sp.context.spanID)) ++ [sp]

/-- Modelled from the spec: `Store.Trace(traceID)` returns every span sharing
that TraceID, or a not-found error when there is none. -/
def MemoryStore.Trace (s : MemoryStore) (traceID : Nat) : Except Error (List Span) :=
  match s.filter (fun x => decide (x.context.traceID = traceID)) with
  | [] => .error "NotFound"
  | sp :: sps => .ok (sp :: sps)

/-- The store objects of the process, by address. -/
abbrev Heap := Nat → MemoryStore

/-- Modelled from the spec: `Collect(span)` of the local collector appends
directly to its store. -/
def LocalCollector.Collect (c : LocalCollector) (h : Heap) (sp : Span) : Heap :=
  fun a => if a = c.store.addr then (h a).Write sp else h a

/-- The collector server handing one received span to its collector. -/
def CollectorServer.receive (cs : CollectorServer) (h : Heap) (sp : Span) : Heap :=
  cs.collector.Collect h sp

/-- The query service answering "show me this trace" from its `Queryer`. -/
def TraceApp.trace (app : TraceApp) (h : Heap) (traceID : Nat) : Except Error (List Span) :=
  match app.Queryer with
  | none => .error "no queryer"
  | some ref => (h ref.addr).Trace traceID

/-! ## The tracer, modelled from the specification -/

namespace SpecTracer

/-- Modelled from the spec: the key-naming scheme of the propagator (the
Inject/Extract of the external tracing library): a trace-id key, a span-id
key, a lead that marks baggage keys, and the text encoding of an identifier.
The spec leaves the names and the encoding to the implementation. -/
structure Scheme where
  traceKey : String
  spanKey : String
  baggageLead : String
  encodeID : Nat → String
  decodeID : String → Option Nat

/-- Whether the key `s` starts with `p`. -/
def startsWith (p s : String) : Bool := p.data.isPrefixOf s.data

/-- The key `s` without its first `p.length` characters. -/
def dropLead (p s : String) : String := ⟨s.data.drop p.data.length⟩

/-- A scheme Extract can read back: the two reserved keys differ, neither
looks like a baggage key, and identifiers decode to what was encoded. -/
structure Scheme.WellFormed (S : Scheme) : Prop where
  keys_ne : S.traceKey ≠ S.spanKey
  trace_not_baggage : startsWith S.baggageLead S.traceKey = false
  span_not_baggage : startsWith S.baggageLead S.spanKey = false
  decode_encode : ∀ n, S.decodeID (S.encodeID n) = some n

/-- Writes `k ↦ v` into the carrier, overwriting an entry with the same key. -/
def set : Header → String → String → Header
  | [], k, v => [(k, v)]
  | (k', v') :: c, k, v => if k' = k then (k, v) :: c else (k', v') :: set c k v

/-- The value stored under `k`, if any. -/
def get : Header → String → Option String
  | [], _ => none
  | (k', v') :: c, k => if k' = k then some v' else get c k

/-- Modelled from the spec: `Inject(context, carrier)` writes TraceID, SpanID
and one lead-marked key per baggage entry into the carrier, overwriting. -/
def Inject (S : Scheme) (ctx : SpanContext) (carrier : Header) : Header :=
  ctx.baggage.foldl (fun c kv => set c (S.baggageLead ++ kv.1) kv.2)
    (set (set carrier S.traceKey (S.encodeID ctx.traceID)) S.spanKey (S.encodeID ctx.spanID))

/-- The baggage entries found in a carrier, keys without the lead. -/
def baggageOf (S : Scheme) : Header → List (String × String)
  | [] => []
  | (k, v) :: c =>
    if startsWith S.baggageLead k then (dropLead S.baggageLead k, v) :: baggageOf S c
    else baggageOf S c

/-- The error of an Extract that finds no context. -/
def ContextNotFound : Error := "ContextNotFound"

/-- Modelled from the spec: `Extract(carrier)` is the reverse of Inject and
fails with `ContextNotFound` when the trace-id or span-id key is absent; a
value that is not an identifier is reported as corrupted. -/
def Extract (S : Scheme) (carrier : Header) : Except Error SpanContext :=
  match get carrier S.traceKey, get carrier S.spanKey with
  | some t, some s =>
    match S.decodeID t, S.decodeID s with
    | some tid, some sid => .ok ⟨tid, sid, none, baggageOf S carrier⟩
    | _, _ => .error "ContextCorrupted"
  | _, _ => .error ContextNotFound

/-- The parent named by the options of `StartSpan`: the first `ChildOf`. -/
def parentOf : List StartSpanOption → Option SpanContext
  | [] => none
  | StartSpanOption.childOf ctx :: _ => some ctx

/-- Modelled from the spec: `StartSpan(operationName, parentContext?)`
allocates a new SpanID; without a parent it also allocates a new TraceID, with
one it inherits TraceID and baggage and sets ParentSpanID to the parent's
SpanID.  `fresh` holds the identifiers the allocation yields. -/
def StartSpan (fresh : Nat × Nat) (op : String) (parent : Option SpanContext) : Span :=
  match parent with
  | none => ⟨⟨fresh.1, fresh.2, none, []⟩, op⟩
  | some p => ⟨⟨p.traceID, fresh.2, some p.spanID, p.baggage⟩, op⟩

/-- An environment whose tracer is the one modelled from the spec; the HTTP
client and the random source stay arbitrary. -/
def env (S : Scheme) (fresh : Nat × Nat) (clientDo : Request → Option Error)
    (randIntn : Nat → Nat) : Env where
  startSpan := fun op opts => StartSpan fresh op (parentOf opts)
  inject := fun ctx req => (Inject S ctx req.header, none)
  extract := Extract S
  clientDo := clientDo
  randIntn := randIntn

/-- The character of a hexadecimal digit. -/
def hexDigit (d : Nat) : Char :=
  if d < 10 then Char.ofNat (48 + d) else Char.ofNat (87 + d)

/-- The value of a hexadecimal digit character. -/
def hexValue (c : Char) : Option Nat :=
  if 48 ≤ c.toNat ∧ c.toNat ≤ 57 then some (c.toNat - 48)
  else if 97 ≤ c.toNat ∧ c.toNat ≤ 102 then some (c.toNat - 87)
  else none

/-- The values of a string of hexadecimal digits, or `none` if one is not a digit. -/
def hexValues : List Char → Option (List Nat)
  | [] => some []
  | c :: cs =>
    match hexValue c, hexValues cs with
    | some d, some ds => some (d :: ds)
    | _, _ => none

/-- An identifier in lower-case hexadecimal, most significant digit first. -/
def encodeHex (n : Nat) : String := ⟨(Nat.digits 16 n).reverse.map hexDigit⟩

/-- Reads back `encodeHex`. -/
def decodeHex (s : String) : Option Nat :=
  (hexValues s.data).map (fun ds => Nat.ofDigits 16 ds.reverse)

/-- A concrete scheme: hexadecimal identifiers under fixed keys. -/
def hexScheme : Scheme := ⟨"trace-id", "span-id", "baggage-", encodeHex, decodeHex⟩

end SpecTracer

/-! ## Concrete inputs -/

/-- A tracer whose Inject fails, with a client whose requests succeed. -/
def failingInjectEnv : Env where
  startSpan := fun op _ => ⟨⟨1, 2, none, []⟩, op⟩
  inject := fun _ req => (req.header, some "unsupported carrier")
  extract := fun _ => .error "not found"
  clientDo := fun _ => none
  randIntn := fun _ => 0

/-- A tracer whose calls succeed, with a client whose requests succeed. -/
def workingEnv : Env where
  startSpan := fun op _ => ⟨⟨1, 2, none, []⟩, op⟩
  inject := fun _ req => (("trace", "1") :: req.header, none)
  extract := fun _ => .error "not found"
  clientDo := fun _ => none
  randIntn := fun _ => 0

/-- An inbound request for `/home`. -/
def homeRequest : Request := ⟨"GET", ⟨"http", "localhost:8080", "/home"⟩, []⟩

/-- A start of `main` in which every call succeeds. -/
def workingMainEnv : MainEnv where
  listenTCP := .ok 40000
  urlParse := fun _ => .ok ⟨"http", "localhost:8700", ""⟩
  traceappNew := fun _ => .ok ⟨none, none⟩

/-! ## Normal forms of the handlers -/

theorem seq_eq {α β : Type} (p : Proc α) (f : α → Proc β) : (p >>= f) = Proc.seq p f := rfl

theorem asyncBody_eq (env : Env) (span : Span) (a : Request) :
    asyncBody env span a =
      ⟨Effect.clientDo a (env.clientDo a) ::
        (if env.clientDo a = none then
          [Effect.setTag span "error" (TagValue.bool true),
           Effect.logEvent span "GET /async error: <nil>"]
         else []), [], [], some ()⟩ := by
  unfold asyncBody
  cases h : env.clientDo a <;>
    simp [seq_eq, Proc.seq, ClientDo, Proc.call, h, pure, Proc.ret, fmtV]

theorem homeHandler_eq (env : Env) (r : Request) :
    (homeHandler env r) =
      (if (env.inject (homeSpan env).context asyncRequest0).2 = none then
        if (env.inject (homeSpan env).context serviceRequest0).2 = none then
          ⟨[Effect.startSpan "/home" [] (homeSpan env), Effect.write "Request started",
            Effect.newRequest "GET" ⟨"http", "localhost:8080", "/async"⟩,
            Effect.inject (homeSpan env).context asyncRequest0 (asyncRequest env).header none,
            Effect.goStmt,
            Effect.newRequest "GET" ⟨"http", "localhost:8080", "/service"⟩,
            Effect.inject (homeSpan env).context serviceRequest0 (serviceRequest env).header none,
            Effect.clientDo (serviceRequest env) (env.clientDo (serviceRequest env))] ++
            (if env.clientDo (serviceRequest env) = none then
              [Effect.extErrorSet (homeSpan env) true,
               Effect.logEventWithPayload (homeSpan env) "Get service error" none]
             else []) ++
            [Effect.sleep (env.randIntn 200), Effect.write "Request done!",
             Effect.finish (homeSpan env)], [],
            [(asyncBody env (homeSpan env) (asyncRequest env)).trace], some ()⟩
        else
          ⟨[Effect.startSpan "/home" [] (homeSpan env), Effect.write "Request started",
            Effect.newRequest "GET" ⟨"http", "localhost:8080", "/async"⟩,
            Effect.inject (homeSpan env).context asyncRequest0 (asyncRequest env).header none,
            Effect.goStmt,
            Effect.newRequest "GET" ⟨"http", "localhost:8080", "/service"⟩,
            Effect.inject (homeSpan env).context serviceRequest0 (serviceRequest env).header
              (env.inject (homeSpan env).context serviceRequest0).2,
            Effect.fatalf ("Could not inject span context into header: " ++
              fmtV (env.inject (homeSpan env).context serviceRequest0).2)], [],
            [(asyncBody env (homeSpan env) (asyncRequest env)).trace], none⟩
      else
        ⟨[Effect.startSpan "/home" [] (homeSpan env), Effect.write "Request started",
          Effect.newRequest "GET" ⟨"http", "localhost:8080", "/async"⟩,
          Effect.inject (homeSpan env).context asyncRequest0 (asyncRequest env).header
            (env.inject (homeSpan env).context asyncRequest0).2,
          Effect.fatalf ("Could not inject span context into header: " ++
            fmtV (env.inject (homeSpan env).context asyncRequest0).2)], [], [], none⟩) := by
  unfold homeHandler
  simp only [seq_eq, Proc.seq, StartSpan, NewRequest, Inject, Proc.defer, Proc.call, Proc.go,
    Proc.func, Proc.fatalf, ClientDo, sleepRandom, homeSpan, asyncRequest, serviceRequest,
    asyncRequest0, serviceRequest0]
  cases h1 : (env.inject (env.startSpan "/home" []).context
      ⟨"GET", ⟨"http", "localhost:8080", "/async"⟩, []⟩).2 <;>
  cases h2 : (env.inject (env.startSpan "/home" []).context
      ⟨"GET", ⟨"http", "localhost:8080", "/service"⟩, []⟩).2 <;>
  cases h3 : env.clientDo ⟨"GET", ⟨"http", "localhost:8080", "/service"⟩,
      (env.inject (env.startSpan "/home" []).context
      ⟨"GET", ⟨"http", "localhost:8080", "/service"⟩, []⟩).1⟩ <;>
  simp [h1, h2, h3, Proc.seq, Proc.call, Proc.fatalf, pure, Proc.ret, asyncBody_eq, seq_eq, fmtV]

theorem serviceHandler_eq (env : Env) (r : Request) :
    serviceHandler env r =
      (match env.extract r.header with
       | .error e =>
         ⟨[Effect.extractErr r.header e,
           Effect.startSpan r.url.path [] (env.startSpan r.url.path []),
           Effect.httpGet ⟨"http", "localhost:8080", "/db"⟩,
           Effect.sleep (env.randIntn 200),
           Effect.finish (env.startSpan r.url.path [])], [], [], some ()⟩
       | .ok w =>
         ⟨[Effect.extractOk r.header w,
           Effect.startSpan r.url.path [StartSpanOption.childOf w]
             (env.startSpan r.url.path [StartSpanOption.childOf w]),
           Effect.httpGet ⟨"http", "localhost:8080", "/db"⟩,
           Effect.sleep (env.randIntn 200),
           Effect.finish (env.startSpan r.url.path [StartSpanOption.childOf w])],
          [], [], some ()⟩) := by
  unfold serviceHandler
  cases h : env.extract r.header <;>
    simp [seq_eq, Proc.seq, Extract, h, StartSpan, Proc.defer, Proc.call, Proc.func, sleepRandom]

/-- C1: `serviceHandler` always returns and starts exactly one span, named after
the request path: a root span (no option) when Extract fails, and a span with
the single option `ChildOf(wireContext)` when Extract succeeds. -/
theorem serviceHandler_root_or_child (env : Env) (r : Request) :
    (serviceHandler env r).result = some () ∧
    (allCalls (serviceHandler env r)).any isFatal = false ∧
    startSpanCalls (allCalls (serviceHandler env r)) =
      (match env.extract r.header with
       | .error _ => [(r.url.path, [])]
       | .ok wireContext => [(r.url.path, [StartSpanOption.childOf wireContext])]) := by
  rw [serviceHandler_eq]
  cases h : env.extract r.header <;> simp [allCalls, startSpanCalls, isFatal]

/-! ## Claims about the handlers -/

/-- C10: the span `serviceHandler` starts is named after the request path in both
branches; the mux sends `/async` and `/service` to `serviceHandler`, so requests
for them start spans named `/async` and `/service`. -/
theorem serviceHandler_operation_name (env : Env) (r : Request) (method scheme host : String)
    (hdr : Header) :
    (startSpanCalls (serviceHandler env r).trace).map Prod.fst = [r.url.path] ∧
    (startedSpans (serviceHandler env r).trace =
      [env.startSpan r.url.path (match env.extract r.header with
        | .error _ => []
        | .ok w => [StartSpanOption.childOf w])]) ∧
    route muxRoutes "/async" = some HandlerName.service ∧
    route muxRoutes "/service" = some HandlerName.service ∧
    serve env ⟨method, ⟨scheme, host, "/async"⟩, hdr⟩ =
      serviceHandler env ⟨method, ⟨scheme, host, "/async"⟩, hdr⟩ ∧
    serve env ⟨method, ⟨scheme, host, "/service"⟩, hdr⟩ =
      serviceHandler env ⟨method, ⟨scheme, host, "/service"⟩, hdr⟩ ∧
    (startSpanCalls (serve env ⟨method, ⟨scheme, host, "/async"⟩, hdr⟩).trace).map Prod.fst =
      ["/async"] ∧
    (startSpanCalls (serve env ⟨method, ⟨scheme, host, "/service"⟩, hdr⟩).trace).map Prod.fst =
      ["/service"] := by
  have ha : route muxRoutes "/async" = some HandlerName.service := by decide
  have hs : route muxRoutes "/service" = some HandlerName.service := by decide
  have key : ∀ q : Request,
      (startSpanCalls (serviceHandler env q).trace).map Prod.fst = [q.url.path] := by
    intro q
    rw [serviceHandler_eq]
    cases h : env.extract q.header <;> simp [startSpanCalls]
  refine ⟨key r, ?_, ha, hs, ?_, ?_, ?_, ?_⟩
  · rw [serviceHandler_eq]
    cases h : env.extract r.header <;> simp [startedSpans]
  · simp only [serve, ha]
  · simp only [serve, hs]
  · have := key ⟨method, ⟨scheme, host, "/async"⟩, hdr⟩
    simpa only [serve, ha] using this
  · have := key ⟨method, ⟨scheme, host, "/service"⟩, hdr⟩
    simpa only [serve, hs] using this

/-- C2, counterexample: with a tracer whose Inject returns an error, `homeHandler`
calls `log.Fatalf` while handling the request and the process exits. -/
theorem homeHandler_exits_on_inject_error :
    (homeHandler failingInjectEnv homeRequest).result = none ∧
    (homeHandler failingInjectEnv homeRequest).trace.getLast? =
      some (Effect.fatalf "Could not inject span context into header: unsupported carrier") := by
  decide

/-- C2, amended: `indexHandler`, `serviceHandler` and `dbHandler` return on every
input and never call `log.Fatalf`; `homeHandler` exits the process through
`log.Fatalf` exactly when one of its two Inject calls returns an error, and
nothing it starts with `go` calls `log.Fatalf`. -/
theorem handlers_exit_only_on_inject_error (env : Env) (r : Request) :
    ((indexHandler env r).result = some () ∧ (allCalls (indexHandler env r)).any isFatal = false) ∧
    ((serviceHandler env r).result = some () ∧
      (allCalls (serviceHandler env r)).any isFatal = false) ∧
    ((dbHandler env r).result = some () ∧ (allCalls (dbHandler env r)).any isFatal = false) ∧
    ((homeHandler env r).result = none ↔
      ¬ ((env.inject (homeSpan env).context asyncRequest0).2 = none ∧
         (env.inject (homeSpan env).context serviceRequest0).2 = none)) ∧
    ((homeHandler env r).trace.any isFatal = true ↔ (homeHandler env r).result = none) ∧
    (homeHandler env r).spawned.flatten.any isFatal = false := by
  refine ⟨⟨rfl, rfl⟩, ?_, ⟨rfl, rfl⟩, ?_⟩
  · rw [serviceHandler_eq]
    cases h : env.extract r.header <;> simp [allCalls, isFatal]
  · rw [homeHandler_eq, asyncBody_eq]
    by_cases h1 : (env.inject (homeSpan env).context asyncRequest0).2 = none <;>
    by_cases h2 : (env.inject (homeSpan env).context serviceRequest0).2 = none <;>
    by_cases h3 : env.clientDo (serviceRequest env) = none <;>
    by_cases h4 : env.clientDo (asyncRequest env) = none <;>
    simp [h1, h2, h3, h4, isFatal]

/-- C3: in both places where `homeHandler` makes an outbound request, the span is
marked as an error (tag `error` set to true, and an event logged) exactly when
the request returned with a nil error.  The first two parts are the goroutine
that sends `GET /async`, the last two the handler's own `GET /service`, which is
made only when both Inject calls succeeded. -/
theorem homeHandler_marks_error_on_success (env : Env) (r : Request) :
    ((homeHandler env r).spawned = [] ∨
      (homeHandler env r).spawned =
        [(asyncBody env (homeSpan env) (asyncRequest env)).trace]) ∧
    (((asyncBody env (homeSpan env) (asyncRequest env)).trace.any (marksError (homeSpan env)) = true
        ↔ env.clientDo (asyncRequest env) = none) ∧
     ((asyncBody env (homeSpan env) (asyncRequest env)).trace.any (logsEvent (homeSpan env)) = true
        ↔ env.clientDo (asyncRequest env) = none) ∧
     (env.clientDo (asyncRequest env) = none →
        (asyncBody env (homeSpan env) (asyncRequest env)).trace =
          [Effect.clientDo (asyncRequest env) none,
           Effect.setTag (homeSpan env) "error" (TagValue.bool true),
           Effect.logEvent (homeSpan env) "GET /async error: <nil>"])) ∧
    (((homeHandler env r).trace.any (marksError (homeSpan env)) = true
        ↔ Effect.clientDo (serviceRequest env) none ∈ (homeHandler env r).trace) ∧
     ((homeHandler env r).trace.any (logsEvent (homeSpan env)) = true
        ↔ Effect.clientDo (serviceRequest env) none ∈ (homeHandler env r).trace) ∧
     (Effect.clientDo (serviceRequest env) none ∈ (homeHandler env r).trace
        ↔ ((env.inject (homeSpan env).context asyncRequest0).2 = none ∧
           (env.inject (homeSpan env).context serviceRequest0).2 = none ∧
           env.clientDo (serviceRequest env) = none))) := by
  rw [homeHandler_eq, asyncBody_eq]
  cases h1 : (env.inject (homeSpan env).context asyncRequest0).2 <;>
  cases h2 : (env.inject (homeSpan env).context serviceRequest0).2 <;>
  cases h3 : env.clientDo (serviceRequest env) <;>
  cases h4 : env.clientDo (asyncRequest env) <;>
  simp [marksError, logsEvent]

/-- C7, counterexample: with a tracer whose Inject returns an error, `homeHandler`
starts its span and exits without any call of Finish: zero calls, not one. -/
theorem homeHandler_inject_error_never_finishes :
    startedSpans (allCalls (homeHandler failingInjectEnv homeRequest)) =
      [homeSpan failingInjectEnv] ∧
    finishes (allCalls (homeHandler failingInjectEnv homeRequest)) = [] := by
  decide

/-- C7, amended: every handler run calls Finish at most once.  `serviceHandler`
starts one span and calls Finish on it exactly once on every run; `homeHandler`
starts one span and calls Finish on it exactly once on every run that returns,
which are the runs in which both Inject calls succeed; on the other runs the
process exits and Finish is not called.  The goroutine never calls Finish. -/
theorem handlers_finish_started_span_once (env : Env) (r : Request) :
    (startedSpans (allCalls (serviceHandler env r))).length = 1 ∧
    finishes (allCalls (serviceHandler env r)) = startedSpans (allCalls (serviceHandler env r)) ∧
    startedSpans (allCalls (homeHandler env r)) = [homeSpan env] ∧
    finishes (allCalls (homeHandler env r)) =
      (if (homeHandler env r).result = some () then [homeSpan env] else []) ∧
    finishes (homeHandler env r).spawned.flatten = [] ∧
    ((homeHandler env r).result = some () ↔
      ((env.inject (homeSpan env).context asyncRequest0).2 = none ∧
       (env.inject (homeSpan env).context serviceRequest0).2 = none)) := by
  refine ⟨?_, ?_, ?_⟩
  · rw [serviceHandler_eq]
    cases h : env.extract r.header <;> simp [allCalls, startedSpans]
  · rw [serviceHandler_eq]
    cases h : env.extract r.header <;> simp [allCalls, startedSpans, finishes]
  · rw [homeHandler_eq, asyncBody_eq]
    by_cases h1 : (env.inject (homeSpan env).context asyncRequest0).2 = none <;>
    by_cases h2 : (env.inject (homeSpan env).context serviceRequest0).2 = none <;>
    by_cases h3 : env.clientDo (serviceRequest env) = none <;>
    by_cases h4 : env.clientDo (asyncRequest env) = none <;>
    simp [h1, h2, h3, h4, allCalls, startedSpans, finishes]

/-! ## Goroutine schedules -/

theorem subset_carriers (ctx : SpanContext) (inj : List Request) (e : Effect) :
    inj ⊆ carriers ctx inj e := by
  unfold carriers
  split
  · split
    · exact List.subset_cons_self _ _
    · exact List.Subset.refl _
  · exact List.Subset.refl _

theorem carriers_mono (ctx : SpanContext) {inj inj' : List Request} (h : inj ⊆ inj')
    (e : Effect) : carriers ctx inj e ⊆ carriers ctx inj' e := by
  unfold carriers
  split
  · split
    · exact List.cons_subset_cons _ h
    · exact h
  · exact h

theorem sendAllowed_mono {inj inj' : List Request} (h : inj ⊆ inj') (e : Effect)
    (he : sendAllowed inj e = true) : sendAllowed inj' e = true := by
  cases e <;> simp_all [sendAllowed]
  exact h he

theorem sentAfterInject_mono (ctx : SpanContext) (tr : List Effect) :
    ∀ inj inj' : List Request, inj ⊆ inj' →
      sentAfterInject ctx inj tr = true → sentAfterInject ctx inj' tr = true := by
  induction tr with
  | nil => intro _ _ _ _; rfl
  | cons e es ih =>
    intro inj inj' h hok
    simp only [sentAfterInject, Bool.and_eq_true] at hok ⊢
    exact ⟨sendAllowed_mono h e hok.1, ih _ _ (carriers_mono ctx h e) hok.2⟩

theorem threadsSendAfterInject_mono (ctx : SpanContext) (tr : List Effect) :
    ∀ (pend : List (List Effect)) (inj inj' : List Request), inj ⊆ inj' →
      threadsSendAfterInject ctx inj tr pend = true →
      threadsSendAfterInject ctx inj' tr pend = true := by
  induction tr with
  | nil => intro _ _ _ _ _; rfl
  | cons e es ih =>
    intro pend inj inj' h hok
    simp only [threadsSendAfterInject, Bool.and_eq_true] at hok ⊢
    refine ⟨sendAllowed_mono h e hok.1, ?_⟩
    have hrest := hok.2
    by_cases hg : e = Effect.goStmt
    · simp only [hg, if_true] at hrest ⊢
      cases pend with
      | nil => exact ih _ _ _ (carriers_mono ctx h _) hrest
      | cons b bs =>
        simp only [Bool.and_eq_true] at hrest ⊢
        exact ⟨sentAfterInject_mono ctx b _ _ h hrest.1,
          ih _ _ _ (carriers_mono ctx h _) hrest.2⟩
    · simp only [hg, if_false] at hrest ⊢
      exact ih _ _ _ (carriers_mono ctx h _) hrest

/-- The monitor holds of every schedule of threads that each pass it. -/
theorem run_sentAfterInject (ctx : SpanContext) (sched : List Nat) :
    ∀ (st : Sched) (inj : List Request),
      threadsSendAfterInject ctx inj st.main st.pending = true →
      (∀ b ∈ st.running, sentAfterInject ctx inj b = true) →
      sentAfterInject ctx inj (st.run sched) = true := by
  induction sched with
  | nil => intro _ _ _ _; rfl
  | cons c cs ih =>
    intro st inj hm hr
    obtain ⟨main, pending, running⟩ := st
    simp only at hm hr
    cases c with
    | zero =>
      cases main with
      | nil =>
        simp only [Sched.run, Sched.step]
        exact ih _ _ hm hr
      | cons e m =>
        simp only [threadsSendAfterInject, Bool.and_eq_true] at hm
        have hrun : ∀ b ∈ running, sentAfterInject ctx (carriers ctx inj e) b = true :=
          fun b hb => sentAfterInject_mono ctx b _ _ (subset_carriers ctx inj e) (hr b hb)
        by_cases hg : e = Effect.goStmt
        · have hrest := hm.2
          simp only [hg, if_true] at hrest
          cases pending with
          | nil =>
            simp only [Sched.run, Sched.step, hg, if_true, isFatal, Bool.false_eq_true, if_false,
              sentAfterInject, sendAllowed, Bool.true_and]
            refine ih ⟨m, [], running⟩ _ hrest ?_
            simpa only [hg] using hrun
          | cons b bs =>
            simp only [Bool.and_eq_true] at hrest
            simp only [Sched.run, Sched.step, hg, if_true, isFatal, Bool.false_eq_true, if_false,
              sentAfterInject, sendAllowed, Bool.true_and]
            refine ih ⟨m, bs, running ++ [b]⟩ _ hrest.2 ?_
            intro x hx
            rcases List.mem_append.1 hx with hx | hx
            · simpa only [hg] using hrun x hx
            · rw [List.mem_singleton] at hx
              subst hx
              exact sentAfterInject_mono ctx x _ _ (subset_carriers ctx inj _) hrest.1
        · have hrest := hm.2
          simp only [hg, if_false] at hrest
          simp only [Sched.run, Sched.step, hg, if_false]
          split
          · simp only [sentAfterInject, Bool.and_eq_true, and_true]
            exact hm.1
          · simp only [sentAfterInject, Bool.and_eq_true]
            exact ⟨hm.1, ih ⟨m, pending, running⟩ _ hrest hrun⟩
    | succ k =>
      simp only [Sched.run, Sched.step]
      cases hk : running.get? k with
      | none => exact ih _ _ hm hr
      | some t =>
        cases t with
        | nil => exact ih _ _ hm hr
        | cons e t =>
          have hmem : (e :: t) ∈ running := List.get?_mem hk
          have hok := hr _ hmem
          simp only [sentAfterInject, Bool.and_eq_true] at hok
          simp only
          split
          · simp only [sentAfterInject, Bool.and_eq_true, and_true]
            exact hok.1
          · simp only [sentAfterInject, Bool.and_eq_true]
            refine ⟨hok.1, ih ⟨main, pending, running.set k t⟩ _ ?_ ?_⟩
            · exact threadsSendAfterInject_mono ctx main pending _ _ (subset_carriers ctx inj e) hm
            · intro x hx
              rcases List.mem_or_eq_of_mem_set hx with hx | hx
              · exact sentAfterInject_mono ctx x _ _ (subset_carriers ctx inj e) (hr x hx)
              · subst hx
                exact hok.2

theorem homeHandler_threads_ok (env : Env) (r : Request) :
    threadsSendAfterInject (homeSpan env).context [] (homeHandler env r).trace
      (homeHandler env r).spawned = true := by
  rw [homeHandler_eq, asyncBody_eq]
  cases h1 : (env.inject (homeSpan env).context asyncRequest0).2 <;>
  cases h2 : (env.inject (homeSpan env).context serviceRequest0).2 <;>
  cases h3 : env.clientDo (serviceRequest env) <;>
  cases h4 : env.clientDo (asyncRequest env) <;>
  simp [threadsSendAfterInject, sentAfterInject, sendAllowed, carriers, asyncRequest,
    serviceRequest]

/-- C4: under every schedule of the handler and its goroutine, each request
`homeHandler` hands to the HTTP client was before that the carrier of a
successful Inject of the context of the `/home` span (the span returned by the
`StartSpan` call that opens the handler) and is sent with the header map that
Inject left; the requests sent are the `/async` and the `/service` request. -/
theorem homeHandler_sends_after_inject (env : Env) (r : Request) (sched : List Nat) :
    (homeHandler env r).trace.head? = some (Effect.startSpan "/home" [] (homeSpan env)) ∧
    sentAfterInject (homeSpan env).context [] (execution (homeHandler env r) sched) = true ∧
    sentRequests (allCalls (homeHandler env r)) =
      (if (env.inject (homeSpan env).context asyncRequest0).2 = none then
        if (env.inject (homeSpan env).context serviceRequest0).2 = none then
          [serviceRequest env, asyncRequest env]
        else [asyncRequest env]
      else []) := by
  refine ⟨?_, ?_, ?_⟩
  · rw [homeHandler_eq]
    cases h1 : (env.inject (homeSpan env).context asyncRequest0).2 <;>
    cases h2 : (env.inject (homeSpan env).context serviceRequest0).2 <;> simp
  · exact run_sentAfterInject _ sched ⟨_, _, []⟩ [] (homeHandler_threads_ok env r)
      (fun b hb => absurd hb (List.not_mem_nil b))
  · rw [homeHandler_eq, asyncBody_eq]
    cases h1 : (env.inject (homeSpan env).context asyncRequest0).2 <;>
    cases h2 : (env.inject (homeSpan env).context serviceRequest0).2 <;>
    cases h3 : env.clientDo (serviceRequest env) <;>
    cases h4 : env.clientDo (asyncRequest env) <;>
    simp [allCalls, sentRequests]

theorem withAsyncOutcome_serviceRequest (env : Env) (out : Option Error) :
    (withAsyncOutcome env out).clientDo (serviceRequest env) = env.clientDo (serviceRequest env) := by
  simp [withAsyncOutcome, serviceRequest, serviceRequest0]

/-- C8: `homeHandler` dispatches the `/async` call on a goroutine: exactly when
its first Inject succeeds it executes one `go` statement whose body is
`asyncBody`, and that body begins by handing the `/async` request to the HTTP
client, which the handler's own thread never does.  The handler does not wait
for it: a run that returns ends with the sleep, the write of "Request done!"
and the deferred Finish of the `/home` span; the calls of the handler's thread,
the bytes it writes to the response and its result are the same whatever the
outcome of the `/async` request; and the schedule in which the handler runs to
its end before the goroutine makes its first call is an execution. -/
theorem homeHandler_async_fire_and_forget (env : Env) (r : Request) (out : Option Error) :
    (homeHandler env r).spawned =
      (if (env.inject (homeSpan env).context asyncRequest0).2 = none then
        [(asyncBody env (homeSpan env) (asyncRequest env)).trace]
       else []) ∧
    ((homeHandler env r).trace.count Effect.goStmt =
      (if (env.inject (homeSpan env).context asyncRequest0).2 = none then 1 else 0)) ∧
    (asyncBody env (homeSpan env) (asyncRequest env)).trace.head? =
      some (Effect.clientDo (asyncRequest env) (env.clientDo (asyncRequest env))) ∧
    sentRequests (asyncBody env (homeSpan env) (asyncRequest env)).trace = [asyncRequest env] ∧
    (asyncRequest env).url = ⟨"http", "localhost:8080", "/async"⟩ ∧
    (asyncBody (withAsyncOutcome env out) (homeSpan env) (asyncRequest env)).trace.head? =
      some (Effect.clientDo (asyncRequest env) out) ∧
    (∀ q ∈ sentRequests (homeHandler env r).trace, q.url.path ≠ "/async") ∧
    ((homeHandler env r).spawned = [] ∨
      (homeHandler env r).spawned =
        [(asyncBody env (homeSpan env) (asyncRequest env)).trace]) ∧
    ((homeHandler env r).result = some () ↔
      ((env.inject (homeSpan env).context asyncRequest0).2 = none ∧
       (env.inject (homeSpan env).context serviceRequest0).2 = none)) ∧
    ((homeHandler env r).result = some () →
      ∃ pre, (homeHandler env r).trace =
        pre ++ [Effect.sleep (env.randIntn 200), Effect.write "Request done!",
          Effect.finish (homeSpan env)]) ∧
    responseBytes (homeHandler env r).trace =
      (if (homeHandler env r).result = some () then ["Request started", "Request done!"]
       else ["Request started"]) ∧
    (homeHandler (withAsyncOutcome env out) r).trace = (homeHandler env r).trace ∧
    responseBytes (homeHandler (withAsyncOutcome env out) r).trace =
      responseBytes (homeHandler env r).trace ∧
    (homeHandler (withAsyncOutcome env out) r).result = (homeHandler env r).result ∧
    ((withAsyncOutcome env out).clientDo (asyncRequest env) = out) ∧
    execution (homeHandler env r) (handlerFirst (homeHandler env r)) =
      (homeHandler env r).trace ++
        (if (homeHandler env r).result = some () then (homeHandler env r).spawned.flatten
         else []) := by
  have htrace : (homeHandler (withAsyncOutcome env out) r).trace = (homeHandler env r).trace := by
    have e1 : homeSpan (withAsyncOutcome env out) = homeSpan env := rfl
    have e2 : asyncRequest (withAsyncOutcome env out) = asyncRequest env := rfl
    have e3 : serviceRequest (withAsyncOutcome env out) = serviceRequest env := rfl
    have e4 : (withAsyncOutcome env out).inject = env.inject := rfl
    have e5 : (withAsyncOutcome env out).randIntn = env.randIntn := rfl
    rw [homeHandler_eq, homeHandler_eq, e1, e2, e3, e4, e5, withAsyncOutcome_serviceRequest]
    cases h1 : (env.inject (homeSpan env).context asyncRequest0).2 <;>
    cases h2 : (env.inject (homeSpan env).context serviceRequest0).2 <;> simp
  have hres : (homeHandler (withAsyncOutcome env out) r).result = (homeHandler env r).result := by
    have e1 : homeSpan (withAsyncOutcome env out) = homeSpan env := rfl
    have e4 : (withAsyncOutcome env out).inject = env.inject := rfl
    rw [homeHandler_eq, homeHandler_eq, e1, e4]
    cases h1 : (env.inject (homeSpan env).context asyncRequest0).2 <;>
    cases h2 : (env.inject (homeSpan env).context serviceRequest0).2 <;> simp
  have hout : (withAsyncOutcome env out).clientDo (asyncRequest env) = out := by
    simp [withAsyncOutcome, asyncRequest, asyncRequest0]
  refine ⟨?_, ?_, ?_, ?_, rfl, ?_, ?_, ?_, ?_, ?_, ?_, htrace, by rw [htrace], hres, hout, ?_⟩
  · rw [homeHandler_eq]
    cases h1 : (env.inject (homeSpan env).context asyncRequest0).2 <;>
    cases h2 : (env.inject (homeSpan env).context serviceRequest0).2 <;> simp
  · rw [homeHandler_eq]
    cases h1 : (env.inject (homeSpan env).context asyncRequest0).2 <;>
    cases h2 : (env.inject (homeSpan env).context serviceRequest0).2 <;>
    cases h3 : env.clientDo (serviceRequest env) <;>
    simp [List.count_cons]
  · rw [asyncBody_eq]
    rfl
  · rw [asyncBody_eq]
    cases h4 : env.clientDo (asyncRequest env) <;> simp [sentRequests]
  · rw [asyncBody_eq, hout]
    rfl
  · rw [homeHandler_eq]
    cases h1 : (env.inject (homeSpan env).context asyncRequest0).2 <;>
    cases h2 : (env.inject (homeSpan env).context serviceRequest0).2 <;>
    cases h3 : env.clientDo (serviceRequest env) <;>
    simp [sentRequests, serviceRequest, serviceRequest0]
  · rw [homeHandler_eq]
    cases h1 : (env.inject (homeSpan env).context asyncRequest0).2 <;>
    cases h2 : (env.inject (homeSpan env).context serviceRequest0).2 <;> simp
  · rw [homeHandler_eq]
    cases h1 : (env.inject (homeSpan env).context asyncRequest0).2 <;>
    cases h2 : (env.inject (homeSpan env).context serviceRequest0).2 <;> simp
  · rw [homeHandler_eq]
    cases h1 : (env.inject (homeSpan env).context asyncRequest0).2 <;>
    cases h2 : (env.inject (homeSpan env).context serviceRequest0).2 <;>
    simp only [if_true, reduceCtorEq, if_false, false_implies]
    intro _
    exact ⟨_, rfl⟩
  · rw [homeHandler_eq]
    cases h1 : (env.inject (homeSpan env).context asyncRequest0).2 <;>
    cases h2 : (env.inject (homeSpan env).context serviceRequest0).2 <;>
    cases h3 : env.clientDo (serviceRequest env) <;>
    simp [responseBytes]
  · unfold execution handlerFirst
    rw [homeHandler_eq, asyncBody_eq]
    cases h1 : (env.inject (homeSpan env).context asyncRequest0).2 <;>
    cases h2 : (env.inject (homeSpan env).context serviceRequest0).2 <;>
    cases h3 : env.clientDo (serviceRequest env) <;>
    cases h4 : env.clientDo (asyncRequest env) <;>
    simp [Sched.run, Sched.step, isFatal, List.replicate]

/-! ## Wiring of the store -/

/-- C9: once `main` serves, the store the collector server's local collector
writes into is the store instance the trace application holds as its `Store`
and as its `Queryer`; hence a span the collector server receives is returned
by the query service for the span's trace, whatever the stores held before. -/
theorem main_shares_store (o : MainEnv) (w : Wiring) (h : main o = .ok w) :
    w.tapp.Store = some w.collectorServer.collector.store ∧
    w.tapp.Queryer = some w.collectorServer.collector.store ∧
    w.collectorServer.collector.store = w.store ∧
    ∀ (heap : Heap) (sp : Span),
      ∃ spans, w.tapp.trace (w.collectorServer.receive heap sp) sp.context.traceID = .ok spans ∧
        sp ∈ spans := by
  unfold main at h
  simp only [NewMemoryStore, bind, Except.bind, pure, Except.pure, throw, throwThe,
    MonadExceptOf.throw] at h
  cases hl : o.listenTCP with
  | error e => simp [hl] at h
  | ok port =>
    cases hu : o.urlParse ("http://localhost:" ++ toString 8700) with
    | error e => simp [hl, hu] at h
    | ok u =>
      cases ht : o.traceappNew u with
      | error e => simp [hl, hu, ht] at h
      | ok app =>
        simp only [hl, hu, ht, Except.ok.injEq] at h
        subst h
        refine ⟨rfl, rfl, rfl, ?_⟩
        intro heap sp
        simp only [TraceApp.trace, CollectorServer.receive, LocalCollector.Collect, if_true,
          MemoryStore.Trace, MemoryStore.Write, List.filter_append]
        have hsp : List.filter (fun x => decide (x.context.traceID = sp.context.traceID)) [sp]
            = [sp] := by simp
        rw [hsp]
        generalize List.filter (fun x => decide (x.context.traceID = sp.context.traceID))
          (List.filter (fun x => !decide (x.context.traceID = sp.context.traceID ∧
            x.context.spanID = sp.context.spanID)) (heap 0)) = l
        cases l with
        | nil => exact ⟨[sp], rfl, List.mem_singleton.2 rfl⟩
        | cons a l => exact ⟨a :: (l ++ [sp]), rfl, by simp⟩

/-- C9, witness: a start in which every call of `main` succeeds. -/
theorem main_shares_store_witness :
    ∃ w, main workingMainEnv = .ok w ∧ w.tapp.Store = some w.collectorServer.collector.store ∧
      w.tapp.Queryer = some w.collectorServer.collector.store :=
  ⟨_, rfl, (main_shares_store workingMainEnv _ rfl).1, (main_shares_store workingMainEnv _ rfl).2.1⟩

/-! ## Propagation through the tracer modelled from the specification -/

namespace SpecTracer

theorem set_of_not_mem (c : Header) (k v : String) (h : k ∉ c.map Prod.fst) :
    set c k v = c ++ [(k, v)] := by
  induction c with
  | nil => rfl
  | cons kv c ih =>
    obtain ⟨k', v'⟩ := kv
    simp only [List.map_cons, List.mem_cons, not_or] at h
    have hne : ¬ k' = k := fun e => h.1 e.symm
    simp only [set, hne, if_false, ih h.2, List.cons_append]

theorem lead_append_inj (p a b : String) (h : p ++ a = p ++ b) : a = b := by
  have hd := congrArg String.data h
  simp only [String.data_append] at hd
  exact String.ext (List.append_cancel_left hd)

theorem inject_baggage (S : Scheme) (bag : List (String × String)) :
    ∀ c : Header, (bag.map Prod.fst).Nodup →
      (∀ kv ∈ bag, S.baggageLead ++ kv.1 ∉ c.map Prod.fst) →
      bag.foldl (fun c kv => set c (S.baggageLead ++ kv.1) kv.2) c =
        c ++ bag.map (fun kv => (S.baggageLead ++ kv.1, kv.2)) := by
  induction bag with
  | nil => intro c _ _; simp
  | cons kv bag ih =>
    intro c hnd hc
    simp only [List.map_cons, List.nodup_cons] at hnd
    simp only [List.foldl_cons]
    rw [set_of_not_mem c _ _ (hc kv (List.mem_cons_self _ _))]
    rw [ih _ hnd.2]
    · simp
    · intro kv' hkv'
      simp only [List.map_append, List.map_cons, List.map_nil, List.mem_append,
        List.mem_singleton, not_or]
      refine ⟨hc kv' (List.mem_cons_of_mem _ hkv'), ?_⟩
      intro e
      have := lead_append_inj _ _ _ e
      exact hnd.1 (this ▸ List.mem_map_of_mem Prod.fst hkv')

theorem startsWith_lead (p k : String) : startsWith p (p ++ k) = true := by
  simp [startsWith, String.data_append]

theorem dropLead_lead (p k : String) : dropLead p (p ++ k) = k := by
  simp [dropLead, String.data_append]

theorem baggageOf_append (S : Scheme) (c d : Header) :
    baggageOf S (c ++ d) = baggageOf S c ++ baggageOf S d := by
  induction c with
  | nil => rfl
  | cons kv c ih =>
    obtain ⟨k, v⟩ := kv
    simp only [List.cons_append, baggageOf]
    split <;> simp [ih]

theorem baggageOf_injected (S : Scheme) (bag : List (String × String)) :
    baggageOf S (bag.map (fun kv => (S.baggageLead ++ kv.1, kv.2))) = bag := by
  induction bag with
  | nil => rfl
  | cons kv bag ih =>
    simp only [List.map_cons, baggageOf, startsWith_lead, if_true, dropLead_lead, ih]

theorem not_startsWith_of_eq {p k k' : String} (h : startsWith p k' = false) :
    p ++ k ≠ k' := by
  intro e
  rw [← e, startsWith_lead] at h
  exact Bool.noConfusion h

/-- The round-trip law: what Inject writes into an empty carrier, Extract reads back. -/
theorem extract_inject (S : Scheme) (hS : S.WellFormed) (ctx : SpanContext)
    (hnd : (ctx.baggage.map Prod.fst).Nodup) :
    Extract S (Inject S ctx []) = .ok ⟨ctx.traceID, ctx.spanID, none, ctx.baggage⟩ := by
  have hbase : set (set [] S.traceKey (S.encodeID ctx.traceID)) S.spanKey (S.encodeID ctx.spanID)
      = [(S.traceKey, S.encodeID ctx.traceID), (S.spanKey, S.encodeID ctx.spanID)] := by
    simp [set, hS.keys_ne]
  have hinj : Inject S ctx [] =
      [(S.traceKey, S.encodeID ctx.traceID), (S.spanKey, S.encodeID ctx.spanID)] ++
        ctx.baggage.map (fun kv => (S.baggageLead ++ kv.1, kv.2)) := by
    unfold Inject
    rw [hbase]
    apply inject_baggage S _ _ hnd
    intro kv _
    simp only [List.map_cons, List.map_nil, List.mem_cons, List.mem_singleton, not_or]
    exact ⟨not_startsWith_of_eq hS.trace_not_baggage, not_startsWith_of_eq hS.span_not_baggage,
      List.not_mem_nil _⟩
  rw [hinj]
  have hbag : baggageOf S ([(S.traceKey, S.encodeID ctx.traceID),
      (S.spanKey, S.encodeID ctx.spanID)] ++
        ctx.baggage.map (fun kv => (S.baggageLead ++ kv.1, kv.2))) = ctx.baggage := by
    rw [baggageOf_append, baggageOf_injected]
    simp [baggageOf, hS.trace_not_baggage, hS.span_not_baggage]
  unfold Extract
  rw [hbag]
  simp [get, hS.keys_ne, hS.decode_encode]

theorem hexValue_hexDigit (d : Nat) (h : d < 16) : hexValue (hexDigit d) = some d := by
  interval_cases d <;> decide

theorem hexValues_hexDigits (ds : List Nat) (h : ∀ d ∈ ds, d < 16) :
    hexValues (ds.map hexDigit) = some ds := by
  induction ds with
  | nil => rfl
  | cons d ds ih =>
    simp only [List.map_cons, hexValues, hexValue_hexDigit d (h d (List.mem_cons_self _ _)),
      ih (fun x hx => h x (List.mem_cons_of_mem _ hx))]

theorem decodeHex_encodeHex (n : Nat) : decodeHex (encodeHex n) = some n := by
  unfold decodeHex encodeHex
  rw [hexValues_hexDigits]
  · simp [Nat.ofDigits_digits]
  · intro d hd
    exact Nat.digits_lt_base (by norm_num) (List.mem_reverse.1 hd)

theorem hexScheme_wellFormed : hexScheme.WellFormed :=
  ⟨by decide, by decide, by decide, decodeHex_encodeHex⟩

end SpecTracer

theorem specEnv_sentRequests (S : SpecTracer.Scheme) (fresh : Nat × Nat)
    (cd : Request → Option Error) (rnd : Nat → Nat) (r : Request) :
    sentRequests (allCalls (homeHandler (SpecTracer.env S fresh cd rnd) r)) =
      [⟨"GET", ⟨"http", "localhost:8080", "/service"⟩,
          SpecTracer.Inject S ⟨fresh.1, fresh.2, none, []⟩ []⟩,
       ⟨"GET", ⟨"http", "localhost:8080", "/async"⟩,
          SpecTracer.Inject S ⟨fresh.1, fresh.2, none, []⟩ []⟩] := by
  rw [homeHandler_eq, asyncBody_eq]
  have e1 : ∀ q, ((SpecTracer.env S fresh cd rnd).inject
      (homeSpan (SpecTracer.env S fresh cd rnd)).context q).2 = none := fun _ => rfl
  rw [if_pos (e1 _), if_pos (e1 _)]
  cases h3 : (SpecTracer.env S fresh cd rnd).clientDo
      (serviceRequest (SpecTracer.env S fresh cd rnd)) <;>
  cases h4 : (SpecTracer.env S fresh cd rnd).clientDo
      (asyncRequest (SpecTracer.env S fresh cd rnd)) <;>
  simp [allCalls, sentRequests, serviceRequest, asyncRequest, serviceRequest0, asyncRequest0,
    homeSpan, SpecTracer.env, SpecTracer.StartSpan, SpecTracer.parentOf]

/-- C5: with the tracer modelled from the specification, `homeHandler` sends the
`/service` and the `/async` request, each with the headers Inject wrote into
an empty map for the context of the `/home` span; from those headers
`serviceHandler` extracts, without error, a context with the same TraceID,
SpanID and baggage. -/
theorem home_inject_service_extract (S : SpecTracer.Scheme) (hS : S.WellFormed)
    (fresh fresh' : Nat × Nat) (cd cd' : Request → Option Error) (rnd rnd' : Nat → Nat)
    (r : Request) :
    (sentRequests (allCalls (homeHandler (SpecTracer.env S fresh cd rnd) r))).map
        (fun q => q.url.path) = ["/service", "/async"] ∧
    ∀ q ∈ sentRequests (allCalls (homeHandler (SpecTracer.env S fresh cd rnd) r)),
      q.header =
        SpecTracer.Inject S (homeSpan (SpecTracer.env S fresh cd rnd)).context [] ∧
      ∃ ctx, (SpecTracer.env S fresh' cd' rnd').extract q.header = .ok ctx ∧
        Effect.extractOk q.header ctx ∈ (serviceHandler (SpecTracer.env S fresh' cd' rnd') q).trace ∧
        ctx.traceID = (homeSpan (SpecTracer.env S fresh cd rnd)).context.traceID ∧
        ctx.spanID = (homeSpan (SpecTracer.env S fresh cd rnd)).context.spanID ∧
        ctx.baggage = (homeSpan (SpecTracer.env S fresh cd rnd)).context.baggage := by
  rw [specEnv_sentRequests]
  refine ⟨by simp, ?_⟩
  have hx := SpecTracer.extract_inject S hS ⟨fresh.1, fresh.2, none, []⟩ (by simp)
  intro q hq
  have hhdr : q.header = SpecTracer.Inject S ⟨fresh.1, fresh.2, none, []⟩ [] := by
    simp only [List.mem_cons, List.mem_singleton, List.not_mem_nil, or_false] at hq
    rcases hq with hq | hq <;> rw [hq]
  refine ⟨hhdr, ⟨fresh.1, fresh.2, none, []⟩, ?_, ?_, rfl, rfl, rfl⟩
  · rw [hhdr]; exact hx
  · rw [serviceHandler_eq]
    have : (SpecTracer.env S fresh' cd' rnd').extract q.header =
        .ok ⟨fresh.1, fresh.2, none, []⟩ := by rw [hhdr]; exact hx
    rw [this]
    simp

/-- C5, witness: the hexadecimal scheme is well formed, and the `/async` request
sent for the `/home` span with TraceID 7 and SpanID 1 is read back as such. -/
theorem home_inject_service_extract_witness :
    SpecTracer.hexScheme.WellFormed ∧
    ∃ ctx, SpecTracer.Extract SpecTracer.hexScheme
        (SpecTracer.Inject SpecTracer.hexScheme ⟨7, 1, none, []⟩ []) = .ok ctx ∧
      ctx.traceID = 7 ∧ ctx.spanID = 1 ∧ ctx.baggage = [] := by
  refine ⟨SpecTracer.hexScheme_wellFormed, ?_⟩
  obtain ⟨_, ctx, hext, _, ht, hs, hb⟩ :=
    (home_inject_service_extract SpecTracer.hexScheme SpecTracer.hexScheme_wellFormed (7, 1) (9, 2)
      (fun _ => none) (fun _ => none) (fun _ => 0) (fun _ => 0) homeRequest).2
      ⟨"GET", ⟨"http", "localhost:8080", "/async"⟩,
        SpecTracer.Inject SpecTracer.hexScheme ⟨7, 1, none, []⟩ []⟩
      (by rw [specEnv_sentRequests]; simp)
  exact ⟨ctx, hext, ht, hs, hb⟩

/-- C6: with the tracer modelled from the specification, for each request
`homeHandler` sends (to `/service` and to `/async`), the one span
`serviceHandler` starts on receiving it has the TraceID of the `/home` span and
the SpanID of the `/home` span as its ParentSpanID. -/
theorem service_span_child_of_home_span (S : SpecTracer.Scheme) (hS : S.WellFormed)
    (fresh fresh' : Nat × Nat) (cd cd' : Request → Option Error) (rnd rnd' : Nat → Nat)
    (r : Request) :
    (sentRequests (allCalls (homeHandler (SpecTracer.env S fresh cd rnd) r))).map
        (fun q => q.url.path) = ["/service", "/async"] ∧
    ∀ q ∈ sentRequests (allCalls (homeHandler (SpecTracer.env S fresh cd rnd) r)),
      ∃ sp, startedSpans (serviceHandler (SpecTracer.env S fresh' cd' rnd') q).trace = [sp] ∧
        sp.operationName = q.url.path ∧
        sp.context.traceID = (homeSpan (SpecTracer.env S fresh cd rnd)).context.traceID ∧
        sp.context.parentSpanID =
          some (homeSpan (SpecTracer.env S fresh cd rnd)).context.spanID ∧
        sp.context.spanID = fresh'.2 := by
  rw [specEnv_sentRequests]
  refine ⟨by simp, ?_⟩
  have hx := SpecTracer.extract_inject S hS ⟨fresh.1, fresh.2, none, []⟩ (by simp)
  intro q hq
  have hhdr : q.header = SpecTracer.Inject S ⟨fresh.1, fresh.2, none, []⟩ [] := by
    simp only [List.mem_cons, List.mem_singleton, List.not_mem_nil, or_false] at hq
    rcases hq with hq | hq <;> rw [hq]
  have hext : (SpecTracer.env S fresh' cd' rnd').extract q.header =
      .ok ⟨fresh.1, fresh.2, none, []⟩ := by rw [hhdr]; exact hx
  rw [serviceHandler_eq, hext]
  exact ⟨_, rfl, rfl, rfl, rfl, rfl⟩

/-- C6, witness: the hexadecimal scheme is well formed, and the span started for
the `/async` request sent for the `/home` span with TraceID 7 and SpanID 1 has
TraceID 7 and ParentSpanID 1. -/
theorem service_span_child_of_home_span_witness :
    SpecTracer.hexScheme.WellFormed ∧
    ∃ sp, startedSpans (serviceHandler
        (SpecTracer.env SpecTracer.hexScheme (9, 2) (fun _ => none) (fun _ => 0))
        ⟨"GET", ⟨"http", "localhost:8080", "/async"⟩,
          SpecTracer.Inject SpecTracer.hexScheme ⟨7, 1, none, []⟩ []⟩).trace = [sp] ∧
      sp.operationName = "/async" ∧ sp.context.traceID = 7 ∧
      sp.context.parentSpanID = some 1 ∧ sp.context.spanID = 2 := by
  refine ⟨SpecTracer.hexScheme_wellFormed, ?_⟩
  exact (service_span_child_of_home_span SpecTracer.hexScheme SpecTracer.hexScheme_wellFormed (7, 1)
      (9, 2) (fun _ => none) (fun _ => none) (fun _ => 0) (fun _ => 0) homeRequest).2
      ⟨"GET", ⟨"http", "localhost:8080", "/async"⟩,
        SpecTracer.Inject SpecTracer.hexScheme ⟨7, 1, none, []⟩ []⟩
      (by rw [specEnv_sentRequests]; simp)

end OpenTracingDemo
